import Mathlib

/-!
Verification of the kinematics and trajectory engine of a 2-link robot-arm
simulator.  Definitions are shallow embeddings, over the real numbers, of the
TypeScript source files:

* `src/utils/kinematics.ts`   — geometry primitives, forward/inverse kinematics,
  angle normalization;
* `src/utils/smoothing.ts`    — moving-average and Gaussian trajectory smoothing;
* `src/hooks/useMouseTracking.ts` (the `useRecording` hook) — the frame-capture
  tick with change dedup;
* `src/hooks/usePlayback.ts`  — the playback tick with binary-search frame
  lookup and publish-on-change;
* the application context (`AppContext`) — trajectory editing and undo/redo.

JavaScript numbers are modelled as real numbers; `Math.atan2` is modelled via
`Complex.arg`, and the JS convention `Math.floor` on nonnegative quotients
matches `Nat`/`Int` euclidean division as used below.
-/

namespace RobotSim

/-- 2D vector, from `Vector2D` in `types.ts`. -/
structure Vector2D where
  x : ℝ
  y : ℝ

instance : Inhabited Vector2D := ⟨⟨0, 0⟩⟩

/-- Model of `Math.atan2 y x`: the argument of the complex number `x + y i`,
in `(-π, π]` (with `atan2 0 0 = 0`, as in JS). -/
noncomputable def atan2 (y x : ℝ) : ℝ := Complex.arg ⟨x, y⟩

/-- From `kinematics.ts`: `polarToCartesian`. -/
noncomputable def polarToCartesian (origin : Vector2D) (angle length : ℝ) : Vector2D :=
  ⟨origin.x + Real.cos angle * length, origin.y + Real.sin angle * length⟩

/-- From `kinematics.ts`: `distance`. -/
noncomputable def distance (p1 p2 : Vector2D) : ℝ :=
  Real.sqrt ((p2.x - p1.x) * (p2.x - p1.x) + (p2.y - p1.y) * (p2.y - p1.y))

/-- From `kinematics.ts`: `angleTo`. -/
noncomputable def angleTo (p1 p2 : Vector2D) : ℝ :=
  atan2 (p2.y - p1.y) (p2.x - p1.x)

/-- From `types.ts`: `RobotArmConfig`. -/
structure RobotArmConfig where
  shoulderPosition : Vector2D
  upperArmLength : ℝ
  lowerArmLength : ℝ
  shoulderAngle : ℝ
  elbowAngle : ℝ

/-- Result record of `forwardKinematics`. -/
structure FKResult where
  elbowPosition : Vector2D
  endEffectorPosition : Vector2D

/-- From `kinematics.ts`: `forwardKinematics`. -/
noncomputable def forwardKinematics (config : RobotArmConfig) : FKResult :=
  let elbowPosition :=
    polarToCartesian config.shoulderPosition config.shoulderAngle config.upperArmLength
  let absoluteElbowAngle := config.shoulderAngle + config.elbowAngle
  let endEffectorPosition :=
    polarToCartesian elbowPosition absoluteElbowAngle config.lowerArmLength
  ⟨elbowPosition, endEffectorPosition⟩

/-- Result record of `inverseKinematics`. -/
structure IKResult where
  shoulderAngle : ℝ
  elbowAngle : ℝ
  clampedTarget : Vector2D

/-- The value held by the (reassigned) local variable `dist` of
`inverseKinematics` after the reachability clamp. -/
noncomputable def ikInternalDist (shoulderPosition targetPosition : Vector2D)
    (upperArmLength lowerArmLength : ℝ) : ℝ :=
  let dist := distance shoulderPosition targetPosition
  let maxReach := upperArmLength + lowerArmLength
  let minReach := |upperArmLength - lowerArmLength|
  if dist > maxReach then maxReach
  else if dist < minReach then minReach
  else dist

/-- From `kinematics.ts`: `inverseKinematics`.  The mutation of the local
`dist` is rendered through `ikInternalDist`; the rest is a direct
transcription. -/
noncomputable def inverseKinematics (shoulderPosition targetPosition : Vector2D)
    (upperArmLength lowerArmLength : ℝ) (elbowUp : Bool) : IKResult :=
  let dist0 := distance shoulderPosition targetPosition
  let maxReach := upperArmLength + lowerArmLength
  let minReach := |upperArmLength - lowerArmLength|
  let clampedTarget :=
    if dist0 > maxReach then
      let angleToTarget := angleTo shoulderPosition targetPosition
      Vector2D.mk (shoulderPosition.x + Real.cos angleToTarget * maxReach)
        (shoulderPosition.y + Real.sin angleToTarget * maxReach)
    else if dist0 < minReach then
      let angleToTarget := angleTo shoulderPosition targetPosition
      Vector2D.mk (shoulderPosition.x + Real.cos angleToTarget * minReach)
        (shoulderPosition.y + Real.sin angleToTarget * minReach)
    else targetPosition
  let dist := ikInternalDist shoulderPosition targetPosition upperArmLength lowerArmLength
  let angleToTarget := angleTo shoulderPosition clampedTarget
  let cosElbowAngle :=
    (upperArmLength * upperArmLength + lowerArmLength * lowerArmLength - dist * dist) /
      (2 * upperArmLength * lowerArmLength)
  let clampedCos := max (-1) (min 1 cosElbowAngle)
  let interiorAngle := Real.arccos clampedCos
  let elbowAngle :=
    if elbowUp then (Real.pi - interiorAngle) else -(Real.pi - interiorAngle)
  let cosShoulderOffset :=
    (upperArmLength * upperArmLength + dist * dist - lowerArmLength * lowerArmLength) /
      (2 * upperArmLength * dist)
  let clampedCosOffset := max (-1) (min 1 cosShoulderOffset)
  let shoulderOffset := Real.arccos clampedCosOffset
  let shoulderAngle :=
    if elbowUp then angleToTarget - shoulderOffset else angleToTarget + shoulderOffset
  ⟨shoulderAngle, elbowAngle, clampedTarget⟩

/-- From `kinematics.ts`: `isInTargetZone`. -/
noncomputable def isInTargetZone (endEffectorPos targetPos : Vector2D) (targetRadius : ℝ) : Prop :=
  distance endEffectorPos targetPos ≤ targetRadius

/-- First `while` loop of `normalizeAngle`: repeatedly subtract `2π`
while the angle exceeds `π`. -/
noncomputable def normalizeAngleDown (angle : ℝ) : ℝ :=
  if angle > Real.pi then normalizeAngleDown (angle - 2 * Real.pi) else angle
termination_by Nat.ceil ((angle - Real.pi) / (2 * Real.pi))
decreasing_by
  have hpi : (0:ℝ) < Real.pi := Real.pi_pos
  have hx : (0:ℝ) < (angle - Real.pi) / (2 * Real.pi) := by
    apply div_pos <;> linarith
  have h1 : (1:ℕ) ≤ Nat.ceil ((angle - Real.pi) / (2 * Real.pi)) := by
    exact Nat.one_le_iff_ne_zero.mpr (Nat.ceil_pos.mpr hx).ne'
  have harg : (angle - 2 * Real.pi - Real.pi) / (2 * Real.pi)
      = (angle - Real.pi) / (2 * Real.pi) - 1 := by
    field_simp
    ring
  have hle : Nat.ceil ((angle - 2 * Real.pi - Real.pi) / (2 * Real.pi))
      ≤ Nat.ceil ((angle - Real.pi) / (2 * Real.pi)) - 1 := by
    rw [harg, Nat.ceil_le]
    push_cast [h1]
    have := Nat.le_ceil ((angle - Real.pi) / (2 * Real.pi))
    linarith
  omega

/-- Second `while` loop of `normalizeAngle`: repeatedly add `2π`
while the angle is below `-π`. -/
noncomputable def normalizeAngleUp (angle : ℝ) : ℝ :=
  if angle < -Real.pi then normalizeAngleUp (angle + 2 * Real.pi) else angle
termination_by Nat.ceil ((-Real.pi - angle) / (2 * Real.pi))
decreasing_by
  have hpi : (0:ℝ) < Real.pi := Real.pi_pos
  have hx : (0:ℝ) < (-Real.pi - angle) / (2 * Real.pi) := by
    apply div_pos <;> linarith
  have h1 : (1:ℕ) ≤ Nat.ceil ((-Real.pi - angle) / (2 * Real.pi)) := by
    exact Nat.one_le_iff_ne_zero.mpr (Nat.ceil_pos.mpr hx).ne'
  have harg : (-Real.pi - (angle + 2 * Real.pi)) / (2 * Real.pi)
      = (-Real.pi - angle) / (2 * Real.pi) - 1 := by
    field_simp
    ring
  have hle : Nat.ceil ((-Real.pi - (angle + 2 * Real.pi)) / (2 * Real.pi))
      ≤ Nat.ceil ((-Real.pi - angle) / (2 * Real.pi)) - 1 := by
    rw [harg, Nat.ceil_le]
    push_cast [h1]
    have := Nat.le_ceil ((-Real.pi - angle) / (2 * Real.pi))
    linarith
  omega

/-- From `kinematics.ts`: `normalizeAngle` — the two sequential `while` loops. -/
noncomputable def normalizeAngle (angle : ℝ) : ℝ :=
  normalizeAngleUp (normalizeAngleDown angle)

/-- From `types.ts`: `MotionFrame`. -/
structure MotionFrame where
  timestamp : ℝ
  shoulderAngle : ℝ
  elbowAngle : ℝ
  endEffectorPosition : Vector2D
  elbowPosition : Vector2D

instance : Inhabited MotionFrame := ⟨⟨0, 0, 0, default, default⟩⟩

/-- From `types.ts`: `MotionTrajectory` (the `promptType` union of string
literals is modelled as `String`). -/
structure MotionTrajectory where
  frames : List MotionFrame
  startPosition : Vector2D
  targetPosition : Vector2D
  promptType : String
  promptText : String
  completed : Bool
  attemptCount : ℕ
  totalTimeMs : ℝ

instance : Inhabited MotionTrajectory :=
  ⟨⟨[], default, default, "", "", false, 0, 0⟩⟩

/-- From `constants/config.ts`: `SHOULDER_POSITION` (x = 450, y = 600 / 2). -/
noncomputable def SHOULDER_POSITION : Vector2D := ⟨450, 600 / 2⟩

/-- From `constants/config.ts`: `ROBOT_CONFIG.upperArmLength`. -/
noncomputable def ROBOT_CONFIG_upperArmLength : ℝ := 150

/-- From `constants/config.ts`: `ROBOT_CONFIG.lowerArmLength`. -/
noncomputable def ROBOT_CONFIG_lowerArmLength : ℝ := 130

/-- From `smoothing.ts`: `smoothTrajectory` (moving average).  The
`frames.map((frame, index) => ...)` with its inner `for` loop is rendered as a
map over `List.range` with a `Finset.Icc` sum; `Math.max(0, index - halfWindow)`
is truncated `Nat` subtraction, and `count` is the number of loop iterations,
i.e. the cardinality of the index window. -/
noncomputable def smoothTrajectory (trajectory : MotionTrajectory)
    (windowSize : ℕ) : MotionTrajectory :=
  if trajectory.frames.length < windowSize then trajectory
  else
    let smoothedFrames : List MotionFrame :=
      (List.range trajectory.frames.length).map (fun index =>
        let frame := trajectory.frames.getD index default
        let halfWindow := windowSize / 2
        let startIdx := index - halfWindow
        let endIdx := min (trajectory.frames.length - 1) (index + halfWindow)
        let sumShoulderAngle :=
          ∑ i ∈ Finset.Icc startIdx endIdx, (trajectory.frames.getD i default).shoulderAngle
        let sumElbowAngle :=
          ∑ i ∈ Finset.Icc startIdx endIdx, (trajectory.frames.getD i default).elbowAngle
        let count : ℕ := (Finset.Icc startIdx endIdx).card
        let avgShoulderAngle := sumShoulderAngle / count
        let avgElbowAngle := sumElbowAngle / count
        { frame with shoulderAngle := avgShoulderAngle, elbowAngle := avgElbowAngle })
    { trajectory with frames := smoothedFrames }

/-- From `smoothing.ts`: the Gaussian weight `exp(-(d·d)/(2σ²))` of the
neighbour at index `i` for centre `index`. -/
noncomputable def gaussianWeight (sigma : ℝ) (index : ℕ) (i : ℤ) : ℝ :=
  let dist := |(i : ℝ) - (index : ℝ)|
  Real.exp (-(dist * dist) / (2 * sigma * sigma))

/-- From `smoothing.ts`: `gaussianSmoothTrajectory`.  `windowSize` is
`Math.ceil(sigma * 3) * 2 + 1`; window bounds are computed in `ℤ` exactly as
in the source (`Math.max(0, ...)` / `Math.min(length - 1, ...)`). -/
noncomputable def gaussianSmoothTrajectory (trajectory : MotionTrajectory)
    (sigma : ℝ) : MotionTrajectory :=
  if trajectory.frames.length < 3 then trajectory
  else
    let windowSize : ℤ := ⌈sigma * 3⌉ * 2 + 1
    let smoothedFrames : List MotionFrame :=
      (List.range trajectory.frames.length).map (fun index =>
        let frame := trajectory.frames.getD index default
        let halfWindow := windowSize / 2
        let startIdx : ℤ := max 0 ((index : ℤ) - halfWindow)
        let endIdx : ℤ := min ((trajectory.frames.length : ℤ) - 1) ((index : ℤ) + halfWindow)
        let sumShoulderAngle := ∑ i ∈ Finset.Icc startIdx endIdx,
          (trajectory.frames.getD i.toNat default).shoulderAngle * gaussianWeight sigma index i
        let sumElbowAngle := ∑ i ∈ Finset.Icc startIdx endIdx,
          (trajectory.frames.getD i.toNat default).elbowAngle * gaussianWeight sigma index i
        let weightSum := ∑ i ∈ Finset.Icc startIdx endIdx, gaussianWeight sigma index i
        let smoothedShoulderAngle := sumShoulderAngle / weightSum
        let smoothedElbowAngle := sumElbowAngle / weightSum
        let config : RobotArmConfig :=
          ⟨SHOULDER_POSITION, ROBOT_CONFIG_upperArmLength, ROBOT_CONFIG_lowerArmLength,
            smoothedShoulderAngle, smoothedElbowAngle⟩
        let fk := forwardKinematics config
        { frame with
            shoulderAngle := smoothedShoulderAngle
            elbowAngle := smoothedElbowAngle
            endEffectorPosition := fk.endEffectorPosition
            elbowPosition := fk.elbowPosition })
    { trajectory with frames := smoothedFrames }

/-! ### Frame capture (the `useRecording` hook in `useMouseTracking.ts`) -/

/-- The `hasChanged` test of `recordFrame`: true when there is no last
recorded configuration, or when either live angle differs from the last
recorded one by more than `0.0001`. -/
def hasChanged (lastConfig : Option (ℝ × ℝ)) (config : RobotArmConfig) : Prop :=
  match lastConfig with
  | none => True
  | some lc =>
      |lc.1 - config.shoulderAngle| > 0.0001 ∨ |lc.2 - config.elbowAngle| > 0.0001

/-- The frame recorded by `recordFrame` at scheduler time `now`, for a
recording whose time origin is `startTime`. -/
noncomputable def recordedFrame (config : RobotArmConfig) (now startTime : ℝ) : MotionFrame :=
  let fk := forwardKinematics config
  ⟨now - startTime, config.shoulderAngle, config.elbowAngle,
    fk.endEffectorPosition, fk.elbowPosition⟩

open scoped Classical in
/-- One `recordFrame` tick while the recording state is `recording`
(`useMouseTracking.ts`, `useRecording`): if the trajectory is present and the
configuration changed beyond the epsilon, append a frame and remember the
recorded angles; otherwise leave the state alone. -/
noncomputable def recordFrameTick (config : RobotArmConfig) (now startTime : ℝ)
    (trajectory : Option MotionTrajectory) (lastRecorded : Option (ℝ × ℝ)) :
    Option MotionTrajectory × Option (ℝ × ℝ) :=
  match trajectory with
  | none => (none, lastRecorded)
  | some traj =>
      if hasChanged lastRecorded config then
        (some { traj with frames := traj.frames ++ [recordedFrame config now startTime] },
          some (config.shoulderAngle, config.elbowAngle))
      else (some traj, lastRecorded)

/-- A run of consecutive `recordFrame` ticks (one per scheduler tick, with the
given list of scheduler times), threading the trajectory and the
last-recorded-angles cache. -/
noncomputable def recordTicks (config : RobotArmConfig) (startTime : ℝ) :
    List ℝ → Option MotionTrajectory × Option (ℝ × ℝ) →
      Option MotionTrajectory × Option (ℝ × ℝ)
  | [], st => st
  | t :: ts, st => recordTicks config startTime ts (recordFrameTick config t startTime st.1 st.2)

/-! ### Playback (`usePlayback.ts`) -/

/-- The `while (left <= right)` binary-search loop of `animate` in
`usePlayback.ts` (identical in both copies of the hook).  `mid` is
`Math.floor((left + right) / 2)`; both are nonnegative at every call, where
`Int` euclidean division agrees with `Math.floor`. -/
noncomputable def bsearchGo (frames : List MotionFrame) (elapsedTime : ℝ)
    (left right : ℤ) (frameIndex : ℕ) : ℕ :=
  if left ≤ right then
    let mid := (left + right) / 2
    if (frames.getD mid.toNat default).timestamp ≤ elapsedTime then
      bsearchGo frames elapsedTime (mid + 1) right mid.toNat
    else
      bsearchGo frames elapsedTime left (mid - 1) frameIndex
  else frameIndex
termination_by (right + 1 - left).toNat
decreasing_by
  · have hlr : left ≤ right := by assumption
    have hmid : left ≤ (left + right) / 2 := by
      have h2 : (2:ℤ) * left ≤ left + right := by linarith
      have := Int.le_ediv_iff_mul_le (a := left) (b := left + right) (c := 2) (by norm_num)
      exact this.mpr (by linarith)
    have hpos : 0 < right + 1 - left := by linarith
    have : right + 1 - ((left + right) / 2 + 1) < right + 1 - left := by linarith
    omega
  · have hlr : left ≤ right := by assumption
    have hmid : (left + right) / 2 ≤ right := by
      have := Int.ediv_le_ediv (a := left + right) (b := right + right) (c := 2)
      have hmono : (left + right) / 2 ≤ (right + right) / 2 :=
        Int.ediv_le_ediv (by norm_num) (by linarith)
      have hrr : (right + right) / 2 = right := by
        have : right + right = 2 * right := by ring
        rw [this, Int.mul_ediv_cancel_left _ (by norm_num)]
      linarith [hmono, hrr.le, hrr.ge]
    have hpos : 0 < right + 1 - left := by linarith
    have : ((left + right) / 2 - 1) + 1 - left < right + 1 - left := by linarith
    omega

/-- The full binary search of `animate`: `left = 0`,
`right = frames.length - 1`, `frameIndex = 0`. -/
noncomputable def findFrameIndex (frames : List MotionFrame) (elapsedTime : ℝ) : ℕ :=
  bsearchGo frames elapsedTime 0 ((frames.length : ℤ) - 1) 0

/-- Observable outcome of one `animate` tick. -/
structure AnimateResult where
  lastFrameIndex : ℤ
  publishedFrame : Option ℕ
  config : RobotArmConfig
  stopped : Bool

open scoped Classical in
/-- One `animate` tick of `usePlayback.ts` (the copy wired to
`playbackFrame`): find the frame index by binary search; if it differs from
`lastFrameIndexRef`, publish it via `setPlaybackFrame` and copy the frame's
angles into the robot configuration; finally stop when the last index was
reached. -/
noncomputable def animateTick (trajectory : MotionTrajectory) (elapsedTime : ℝ)
    (lastFrameIndex : ℤ) (config : RobotArmConfig) : AnimateResult :=
  let frameIndex := findFrameIndex trajectory.frames elapsedTime
  if (frameIndex : ℤ) ≠ lastFrameIndex then
    let targetFrame := trajectory.frames.getD frameIndex default
    { lastFrameIndex := (frameIndex : ℤ)
      publishedFrame := some frameIndex
      config := { config with
        shoulderAngle := targetFrame.shoulderAngle
        elbowAngle := targetFrame.elbowAngle }
      stopped := decide (trajectory.frames.length - 1 ≤ frameIndex) }
  else
    { lastFrameIndex := lastFrameIndex
      publishedFrame := none
      config := config
      stopped := decide (trajectory.frames.length - 1 ≤ frameIndex) }

/-! ### Application context (`AppContext`): trajectory editing and undo/redo -/

/-- The `RecordingState` union from `types.ts`. -/
inductive RecordingState where
  | idle
  | recording
  | playing
  | paused
deriving DecidableEq

/-- The slice of `AppProvider` state relevant to recording control and
undo/redo. -/
structure AppState where
  recordingState : RecordingState
  currentTrajectory : Option MotionTrajectory
  undoHistory : List MotionTrajectory
  redoHistory : List MotionTrajectory
  robotConfig : RobotArmConfig

/-- From `types.ts`: `PosePreset`. -/
structure PosePreset where
  name : String
  shoulderPosition : Vector2D
  initialShoulderAngle : ℝ
  initialElbowAngle : ℝ
  targetPosition : Vector2D

instance : Inhabited PosePreset := ⟨⟨"", ⟨0, 0⟩, 0, 0, ⟨0, 0⟩⟩⟩

/-- From `constants/config.ts`: the `POSE_PRESETS` record, as a key-indexed
lookup over its three entries. -/
noncomputable def POSE_PRESETS (key : String) : Option PosePreset :=
  if key = "default" then
    some ⟨"default", ⟨450, 300⟩, -(80 * Real.pi / 180), 160 * Real.pi / 180, ⟨720, 300⟩⟩
  else if key = "low-start" then
    some ⟨"low-start", ⟨450, 450⟩, -(80 * Real.pi / 180), 160 * Real.pi / 180, ⟨700, 300⟩⟩
  else if key = "vertical-reach" then
    some ⟨"vertical-reach", ⟨600, 400⟩, 0 * Real.pi / 180, 90 * Real.pi / 180, ⟨600, 150⟩⟩
  else none

/-- From `constants/config.ts`: `ACTIVE_POSE_PRESET = 'default'`. -/
def ACTIVE_POSE_PRESET : String := "default"

/-- From `constants/config.ts`: `getActivePosePreset()` returns
`POSE_PRESETS[ACTIVE_POSE_PRESET]`; the TS key type
(`keyof typeof POSE_PRESETS`) guarantees the lookup hits, so the `Option` is
eliminated with a default that is never reached. -/
noncomputable def getActivePosePreset : PosePreset :=
  (POSE_PRESETS ACTIVE_POSE_PRESET).getD default

/-- The `RobotArmConfig` object literal that `resetRobotPosition` in
`AppContext` passes to `setRobotConfig`: the active preset's shoulder
position and initial angles together with the `ROBOT_CONFIG` arm lengths. -/
noncomputable def resetConfig : RobotArmConfig :=
  { shoulderPosition := getActivePosePreset.shoulderPosition
    upperArmLength := ROBOT_CONFIG_upperArmLength
    lowerArmLength := ROBOT_CONFIG_lowerArmLength
    shoulderAngle := getActivePosePreset.initialShoulderAngle
    elbowAngle := getActivePosePreset.initialElbowAngle }

/-- From `AppContext`: `resetRobotPosition`. -/
noncomputable def resetRobotPosition (s : AppState) : AppState :=
  { s with robotConfig := resetConfig }

/-- From `AppContext`: `startRecording` — set state to `recording` and clear
the redo history. -/
def startRecording (s : AppState) : AppState :=
  { s with recordingState := .recording, redoHistory := [] }

/-- From `AppContext`: `resetCurrentMotion` — when a current trajectory
exists, push it onto the undo history, clear it, go idle and reset the robot
pose.  (It does not touch the redo history.) -/
noncomputable def resetCurrentMotion (s : AppState) : AppState :=
  match s.currentTrajectory with
  | none => s
  | some t =>
      resetRobotPosition
        { s with
            undoHistory := s.undoHistory ++ [t]
            currentTrajectory := none
            recordingState := .idle }

/-- From `AppContext`: `undo` — `undoHistory[length-1]` / `slice(0, -1)` are
`getLast?` / `dropLast`; the current trajectory is pushed to redo only when it
is non-null. -/
def undo (s : AppState) : AppState :=
  match s.undoHistory.getLast? with
  | none => s
  | some previous =>
      { s with
          currentTrajectory := some previous
          undoHistory := s.undoHistory.dropLast
          redoHistory :=
            match s.currentTrajectory with
            | some c => s.redoHistory ++ [c]
            | none => s.redoHistory }

/-- From `AppContext`: `redo` — mirror of `undo`. -/
def redo (s : AppState) : AppState :=
  match s.redoHistory.getLast? with
  | none => s
  | some next =>
      { s with
          currentTrajectory := some next
          redoHistory := s.redoHistory.dropLast
          undoHistory :=
            match s.currentTrajectory with
            | some c => s.undoHistory ++ [c]
            | none => s.undoHistory }

/-- From `AppContext`: `redrawFromFrame` — with a valid index, push the
current trajectory to undo, truncate (`slice(0, frameIndex + 1)` is
`take (frameIndex + 1)`), force `completed := false`, set `totalTimeMs` to the
selected frame's timestamp, go idle and clear the redo history. -/
def redrawFromFrame (frameIndex : ℤ) (s : AppState) : AppState :=
  match s.currentTrajectory with
  | none => s
  | some t =>
      if frameIndex < 0 ∨ (t.frames.length : ℤ) ≤ frameIndex then s
      else
        { s with
            undoHistory := s.undoHistory ++ [t]
            currentTrajectory := some
              { t with
                  frames := t.frames.take (frameIndex.toNat + 1)
                  completed := false
                  totalTimeMs := (t.frames.getD frameIndex.toNat default).timestamp }
            recordingState := .idle
            redoHistory := [] }

/-! ### Sample data for concrete instantiations -/

/-- A concrete frame with the given timestamp and angles. -/
noncomputable def sampleFrame (ts sa ea : ℝ) : MotionFrame :=
  ⟨ts, sa, ea, default, default⟩

/-- A concrete trajectory around the given frame list. -/
noncomputable def sampleTraj (fs : List MotionFrame) : MotionTrajectory :=
  ⟨fs, default, default, "Bound", "prompt", false, 1, 0⟩

/-- A concrete app-context state: idle, a one-frame current trajectory, empty
undo and redo stacks. -/
noncomputable def sampleState : AppState :=
  ⟨.idle, some (sampleTraj [sampleFrame 0 0 0]), [], [], resetConfig⟩

/-- Like `sampleState` but with a non-empty redo stack. -/
noncomputable def sampleStateRedo : AppState :=
  ⟨.idle, some (sampleTraj [sampleFrame 0 0 0]), [], [sampleTraj []], resetConfig⟩

/-- A concrete three-frame trajectory. -/
noncomputable def sampleTraj3 : MotionTrajectory :=
  sampleTraj [sampleFrame 0 0 0, sampleFrame 1 1 1, sampleFrame 2 2 2]

/-! ## Helper lemmas -/

theorem Vector2D.ext_xy {v w : Vector2D} (hx : v.x = w.x) (hy : v.y = w.y) : v = w := by
  cases v; cases w; simp_all

theorem distance_nonneg (p1 p2 : Vector2D) : 0 ≤ distance p1 p2 :=
  Real.sqrt_nonneg _

theorem distance_mul_cos_sin (s t : Vector2D) :
    distance s t * Real.cos (angleTo s t) = t.x - s.x ∧
    distance s t * Real.sin (angleTo s t) = t.y - s.y := by
  have habs : distance s t = Complex.abs ⟨t.x - s.x, t.y - s.y⟩ := by
    rw [Complex.abs_apply, Complex.normSq_mk, distance]
  have harg : angleTo s t = Complex.arg ⟨t.x - s.x, t.y - s.y⟩ := rfl
  by_cases hz : (⟨t.x - s.x, t.y - s.y⟩ : ℂ) = 0
  · have hre : t.x - s.x = 0 := by
      have := congrArg Complex.re hz
      simpa using this
    have him : t.y - s.y = 0 := by
      have := congrArg Complex.im hz
      simpa using this
    rw [habs, harg, hz]
    simp [hre, him]
  · have habsne : Complex.abs ⟨t.x - s.x, t.y - s.y⟩ ≠ 0 := Complex.abs.ne_zero hz
    constructor
    · rw [habs, harg, Complex.cos_arg hz]
      field_simp
    · rw [habs, harg, Complex.sin_arg]
      field_simp

theorem angleTo_mem_Ioc (s t : Vector2D) :
    angleTo s t ∈ Set.Ioc (-Real.pi) Real.pi :=
  Complex.arg_mem_Ioc _

theorem atan2_polar (theta r : ℝ) (hr : 0 < r)
    (htheta : theta ∈ Set.Ioc (-Real.pi) Real.pi) :
    atan2 (Real.sin theta * r) (Real.cos theta * r) = theta := by
  unfold atan2
  have hmk : (⟨Real.cos theta * r, Real.sin theta * r⟩ : ℂ)
      = (r : ℂ) * (Complex.cos theta + Complex.sin theta * Complex.I) := by
    apply Complex.ext
    · simp [Complex.mul_re, Complex.cos_ofReal_re, Complex.sin_ofReal_re]
      ring
    · simp [Complex.mul_im, Complex.cos_ofReal_re, Complex.sin_ofReal_re]
      ring
  rw [hmk, Complex.arg_real_mul _ hr, Complex.arg_cos_add_sin_mul_I htheta]

theorem distance_polar (s : Vector2D) (theta r : ℝ) (hr : 0 ≤ r) :
    distance s ⟨s.x + Real.cos theta * r, s.y + Real.sin theta * r⟩ = r := by
  rw [distance]
  have hcs := Real.sin_sq_add_cos_sq theta
  have hsum : (s.x + Real.cos theta * r - s.x) * (s.x + Real.cos theta * r - s.x) +
      (s.y + Real.sin theta * r - s.y) * (s.y + Real.sin theta * r - s.y) = r ^ 2 := by
    nlinarith [hcs]
  rw [hsum, Real.sqrt_sq hr]

theorem angleTo_polar (s : Vector2D) (t : Vector2D) (r : ℝ) (hr : 0 < r) :
    angleTo s ⟨s.x + Real.cos (angleTo s t) * r, s.y + Real.sin (angleTo s t) * r⟩
      = angleTo s t := by
  rw [angleTo]
  have hx : s.x + Real.cos (angleTo s t) * r - s.x = Real.cos (angleTo s t) * r := by ring
  have hy : s.y + Real.sin (angleTo s t) * r - s.y = Real.sin (angleTo s t) * r := by ring
  rw [hx, hy]
  exact atan2_polar _ r hr (angleTo_mem_Ioc s t)

theorem atan2_zero_of_nonneg (x : ℝ) (hx : 0 ≤ x) : atan2 0 x = 0 := by
  unfold atan2
  have h : (⟨x, 0⟩ : ℂ) = (x : ℂ) := by
    apply Complex.ext <;> simp
  rw [h]
  exact Complex.arg_ofReal_of_nonneg hx

theorem distance_example_1000 : distance ⟨0, 0⟩ ⟨1000, 0⟩ = 1000 := by
  rw [distance]
  norm_num
  rw [show (1000000 : ℝ) = 1000 ^ 2 by norm_num, Real.sqrt_sq (by norm_num)]

theorem distance_example_200 : distance ⟨0, 0⟩ ⟨200, 0⟩ = 200 := by
  rw [distance]
  norm_num
  rw [show (40000 : ℝ) = 200 ^ 2 by norm_num, Real.sqrt_sq (by norm_num)]

/-! ## Claims -/

/-- C8: `smoothTrajectory` returns its input unchanged whenever
`frames.length < windowSize`, and `gaussianSmoothTrajectory` returns its input
unchanged whenever `frames.length < 3`; in both cases the result is the
identical trajectory value, not an error. -/
theorem smoothing_size_floor (t : MotionTrajectory) (windowSize : ℕ) (sigma : ℝ) :
    (t.frames.length < windowSize → smoothTrajectory t windowSize = t) ∧
    (t.frames.length < 3 → gaussianSmoothTrajectory t sigma = t) := by
  constructor
  · intro h
    rw [smoothTrajectory, if_pos h]
  · intro h
    rw [gaussianSmoothTrajectory, if_pos h]

/-- Witness for C8 at a concrete two-frame trajectory. -/
theorem smoothing_size_floor_witness :
    smoothTrajectory (sampleTraj [sampleFrame 0 0 0, sampleFrame 10 1 1]) 5
        = sampleTraj [sampleFrame 0 0 0, sampleFrame 10 1 1] ∧
    gaussianSmoothTrajectory (sampleTraj [sampleFrame 0 0 0, sampleFrame 10 1 1]) 2
        = sampleTraj [sampleFrame 0 0 0, sampleFrame 10 1 1] :=
  ⟨(smoothing_size_floor (sampleTraj [sampleFrame 0 0 0, sampleFrame 10 1 1]) 5 2).1
      (by simp [sampleTraj]),
   (smoothing_size_floor (sampleTraj [sampleFrame 0 0 0, sampleFrame 10 1 1]) 5 2).2
      (by simp [sampleTraj])⟩

theorem smoothTrajectory_length (t : MotionTrajectory) (w : ℕ) :
    (smoothTrajectory t w).frames.length = t.frames.length := by
  rw [smoothTrajectory]
  split_ifs with h
  · rfl
  · simp

theorem gaussianSmoothTrajectory_length (t : MotionTrajectory) (sigma : ℝ) :
    (gaussianSmoothTrajectory t sigma).frames.length = t.frames.length := by
  rw [gaussianSmoothTrajectory]
  split_ifs with h
  · rfl
  · simp

theorem smoothTrajectory_getD_of_lt (t : MotionTrajectory) (w : ℕ)
    (h : ¬ t.frames.length < w) (i : ℕ) (hi : i < t.frames.length) :
    (smoothTrajectory t w).frames.getD i default =
      { t.frames.getD i default with
          shoulderAngle :=
            (∑ j ∈ Finset.Icc (i - w / 2) (min (t.frames.length - 1) (i + w / 2)),
              (t.frames.getD j default).shoulderAngle) /
            (Finset.Icc (i - w / 2) (min (t.frames.length - 1) (i + w / 2))).card
          elbowAngle :=
            (∑ j ∈ Finset.Icc (i - w / 2) (min (t.frames.length - 1) (i + w / 2)),
              (t.frames.getD j default).elbowAngle) /
            (Finset.Icc (i - w / 2) (min (t.frames.length - 1) (i + w / 2))).card } := by
  rw [smoothTrajectory, if_neg h]
  have hlen : i < ((List.range t.frames.length).map (fun index =>
      let frame := t.frames.getD index default
      let halfWindow := w / 2
      let startIdx := index - halfWindow
      let endIdx := min (t.frames.length - 1) (index + halfWindow)
      let sumShoulderAngle :=
        ∑ j ∈ Finset.Icc startIdx endIdx, (t.frames.getD j default).shoulderAngle
      let sumElbowAngle :=
        ∑ j ∈ Finset.Icc startIdx endIdx, (t.frames.getD j default).elbowAngle
      let count : ℕ := (Finset.Icc startIdx endIdx).card
      let avgShoulderAngle := sumShoulderAngle / count
      let avgElbowAngle := sumElbowAngle / count
      { frame with shoulderAngle := avgShoulderAngle, elbowAngle := avgElbowAngle })).length := by
    simpa using hi
  rw [List.getD_eq_getElem _ _ hlen]
  simp

theorem gaussianSmoothTrajectory_getD_timestamp (t : MotionTrajectory) (sigma : ℝ)
    (h : ¬ t.frames.length < 3) (i : ℕ) (hi : i < t.frames.length) :
    ((gaussianSmoothTrajectory t sigma).frames.getD i default).timestamp
      = (t.frames.getD i default).timestamp := by
  rw [gaussianSmoothTrajectory, if_neg h]
  rw [List.getD_eq_getElem _ _ (by simpa using hi)]
  simp

theorem gaussianSmoothTrajectory_positions (t : MotionTrajectory) (sigma : ℝ)
    (h : ¬ t.frames.length < 3) (i : ℕ) (hi : i < t.frames.length) :
    ((gaussianSmoothTrajectory t sigma).frames.getD i default).elbowPosition
      = (forwardKinematics
          ⟨SHOULDER_POSITION, ROBOT_CONFIG_upperArmLength, ROBOT_CONFIG_lowerArmLength,
            ((gaussianSmoothTrajectory t sigma).frames.getD i default).shoulderAngle,
            ((gaussianSmoothTrajectory t sigma).frames.getD i default).elbowAngle⟩).elbowPosition
    ∧ ((gaussianSmoothTrajectory t sigma).frames.getD i default).endEffectorPosition
      = (forwardKinematics
          ⟨SHOULDER_POSITION, ROBOT_CONFIG_upperArmLength, ROBOT_CONFIG_lowerArmLength,
            ((gaussianSmoothTrajectory t sigma).frames.getD i default).shoulderAngle,
            ((gaussianSmoothTrajectory t sigma).frames.getD i default).elbowAngle⟩).endEffectorPosition := by
  rw [gaussianSmoothTrajectory, if_neg h]
  rw [List.getD_eq_getElem _ _ (by simpa using hi)]
  simp

/-- C7: for inputs of at least the minimum length, `gaussianSmoothTrajectory`
sets each output frame's `elbowPosition` and `endEffectorPosition` to exactly
`forwardKinematics` of that frame's (smoothed) angles, whereas
`smoothTrajectory` leaves every frame's `elbowPosition` and
`endEffectorPosition` exactly as in the input trajectory. -/
theorem smoothing_position_asymmetry (t : MotionTrajectory) (w : ℕ) (sigma : ℝ) :
    (3 ≤ t.frames.length →
      ∀ i, i < t.frames.length →
        ((gaussianSmoothTrajectory t sigma).frames.getD i default).elbowPosition
          = (forwardKinematics
              ⟨SHOULDER_POSITION, ROBOT_CONFIG_upperArmLength, ROBOT_CONFIG_lowerArmLength,
                ((gaussianSmoothTrajectory t sigma).frames.getD i default).shoulderAngle,
                ((gaussianSmoothTrajectory t sigma).frames.getD i default).elbowAngle⟩).elbowPosition
        ∧ ((gaussianSmoothTrajectory t sigma).frames.getD i default).endEffectorPosition
          = (forwardKinematics
              ⟨SHOULDER_POSITION, ROBOT_CONFIG_upperArmLength, ROBOT_CONFIG_lowerArmLength,
                ((gaussianSmoothTrajectory t sigma).frames.getD i default).shoulderAngle,
                ((gaussianSmoothTrajectory t sigma).frames.getD i default).elbowAngle⟩).endEffectorPosition) ∧
    (w ≤ t.frames.length →
      ∀ i, i < t.frames.length →
        ((smoothTrajectory t w).frames.getD i default).elbowPosition
            = (t.frames.getD i default).elbowPosition
        ∧ ((smoothTrajectory t w).frames.getD i default).endEffectorPosition
            = (t.frames.getD i default).endEffectorPosition) := by
  constructor
  · intro h3 i hi
    exact gaussianSmoothTrajectory_positions t sigma (by omega) i hi
  · intro hw i hi
    rw [smoothTrajectory_getD_of_lt t w (by omega) i hi]
    exact ⟨rfl, rfl⟩

/-- Witness for C7 at a concrete three-frame trajectory, window size 3,
sigma 2, frame 0. -/
theorem smoothing_position_asymmetry_witness :
    (((gaussianSmoothTrajectory sampleTraj3 2).frames.getD 0 default).elbowPosition
        = (forwardKinematics
            ⟨SHOULDER_POSITION, ROBOT_CONFIG_upperArmLength, ROBOT_CONFIG_lowerArmLength,
              ((gaussianSmoothTrajectory sampleTraj3 2).frames.getD 0 default).shoulderAngle,
              ((gaussianSmoothTrajectory sampleTraj3 2).frames.getD 0 default).elbowAngle⟩).elbowPosition)
    ∧ (((smoothTrajectory sampleTraj3 3).frames.getD 0 default).elbowPosition
        = (sampleTraj3.frames.getD 0 default).elbowPosition) :=
  ⟨((smoothing_position_asymmetry sampleTraj3 3 2).1
      (by simp [sampleTraj3, sampleTraj]) 0 (by simp [sampleTraj3, sampleTraj])).1,
   ((smoothing_position_asymmetry sampleTraj3 3 2).2
      (by simp [sampleTraj3, sampleTraj]) 0 (by simp [sampleTraj3, sampleTraj])).1⟩

/-- C10: both smoothing variants preserve frame count, every frame's
timestamp, and all trajectory metadata (`startPosition`, `targetPosition`,
`promptType`, `promptText`, `completed`, `attemptCount`, `totalTimeMs`); the
input is never mutated (the embedding is a pure function of the input). -/
theorem smoothing_frame_effect (t : MotionTrajectory) (w : ℕ) (sigma : ℝ) :
    (smoothTrajectory t w).frames.length = t.frames.length ∧
    (gaussianSmoothTrajectory t sigma).frames.length = t.frames.length ∧
    (∀ i, i < t.frames.length →
      ((smoothTrajectory t w).frames.getD i default).timestamp
        = (t.frames.getD i default).timestamp ∧
      ((gaussianSmoothTrajectory t sigma).frames.getD i default).timestamp
        = (t.frames.getD i default).timestamp) ∧
    ((smoothTrajectory t w).startPosition = t.startPosition ∧
     (smoothTrajectory t w).targetPosition = t.targetPosition ∧
     (smoothTrajectory t w).promptType = t.promptType ∧
     (smoothTrajectory t w).promptText = t.promptText ∧
     (smoothTrajectory t w).completed = t.completed ∧
     (smoothTrajectory t w).attemptCount = t.attemptCount ∧
     (smoothTrajectory t w).totalTimeMs = t.totalTimeMs) ∧
    ((gaussianSmoothTrajectory t sigma).startPosition = t.startPosition ∧
     (gaussianSmoothTrajectory t sigma).targetPosition = t.targetPosition ∧
     (gaussianSmoothTrajectory t sigma).promptType = t.promptType ∧
     (gaussianSmoothTrajectory t sigma).promptText = t.promptText ∧
     (gaussianSmoothTrajectory t sigma).completed = t.completed ∧
     (gaussianSmoothTrajectory t sigma).attemptCount = t.attemptCount ∧
     (gaussianSmoothTrajectory t sigma).totalTimeMs = t.totalTimeMs) := by
  refine ⟨smoothTrajectory_length t w, gaussianSmoothTrajectory_length t sigma, ?_, ?_, ?_⟩
  · intro i hi
    constructor
    · by_cases hw : t.frames.length < w
      · rw [smoothTrajectory, if_pos hw]
      · rw [smoothTrajectory_getD_of_lt t w hw i hi]
    · by_cases h3 : t.frames.length < 3
      · rw [gaussianSmoothTrajectory, if_pos h3]
      · exact gaussianSmoothTrajectory_getD_timestamp t sigma h3 i hi
  · rw [smoothTrajectory]
    split_ifs <;> exact ⟨rfl, rfl, rfl, rfl, rfl, rfl, rfl⟩
  · rw [gaussianSmoothTrajectory]
    split_ifs <;> exact ⟨rfl, rfl, rfl, rfl, rfl, rfl, rfl⟩

/-- Witness for C10 at a concrete three-frame trajectory, frame 1. -/
theorem smoothing_frame_effect_witness :
    ((smoothTrajectory sampleTraj3 3).frames.getD 1 default).timestamp
      = (sampleTraj3.frames.getD 1 default).timestamp ∧
    ((gaussianSmoothTrajectory sampleTraj3 2).frames.getD 1 default).timestamp
      = (sampleTraj3.frames.getD 1 default).timestamp :=
  (smoothing_frame_effect sampleTraj3 3 2).2.2.1 1 (by simp [sampleTraj3, sampleTraj])

/-- C5 counterexample: from a state with current trajectory `T` and empty
histories, `reset` then `undo` then `redo` leaves the current trajectory at
`T`, which differs from the post-reset value (`none`) — the claim's
redo round-trip fails on the code. -/
theorem reset_undo_redo_counterexample :
    (redo (undo (resetCurrentMotion sampleState))).currentTrajectory
      ≠ (resetCurrentMotion sampleState).currentTrajectory := by
  simp [resetCurrentMotion, sampleState, resetRobotPosition, undo, redo]

/-- C5 (amended): from a state whose current trajectory is `T`, `reset`
followed by `undo` restores `T`; but the subsequent `redo` is a no-op when the
redo stack is empty (undoing a reset pushes nothing onto the redo stack,
because the post-reset current trajectory is null), so the current trajectory
stays `T` rather than returning to the post-reset null value. -/
theorem reset_undo_redo_round_trip (s : AppState) (t : MotionTrajectory)
    (ht : s.currentTrajectory = some t) :
    (undo (resetCurrentMotion s)).currentTrajectory = some t ∧
    (s.redoHistory = [] →
      redo (undo (resetCurrentMotion s)) = undo (resetCurrentMotion s)) := by
  have hreset : resetCurrentMotion s =
      { s with
          undoHistory := s.undoHistory ++ [t]
          currentTrajectory := none
          recordingState := .idle
          robotConfig := resetConfig } := by
    rw [resetCurrentMotion, ht]
    rfl
  have hundo : undo (resetCurrentMotion s) =
      { s with
          undoHistory := s.undoHistory
          currentTrajectory := some t
          recordingState := .idle
          robotConfig := resetConfig } := by
    rw [hreset, undo]
    simp [List.getLast?_concat, List.dropLast_concat]
  refine ⟨by rw [hundo], fun hredo => ?_⟩
  rw [hundo, redo]
  simp [hredo]

/-- Witness for C5 (amended) at the concrete sample state. -/
theorem reset_undo_redo_round_trip_witness :
    (undo (resetCurrentMotion sampleState)).currentTrajectory
        = some (sampleTraj [sampleFrame 0 0 0]) ∧
    redo (undo (resetCurrentMotion sampleState)) = undo (resetCurrentMotion sampleState) :=
  ⟨(reset_undo_redo_round_trip sampleState (sampleTraj [sampleFrame 0 0 0]) rfl).1,
   (reset_undo_redo_round_trip sampleState (sampleTraj [sampleFrame 0 0 0]) rfl).2 rfl⟩

/-- C6 counterexample: `resetCurrentMotion` does not clear the redo history —
from a state with a current trajectory and a non-empty redo stack, the redo
stack is still non-empty after the reset. -/
theorem redo_not_cleared_on_reset_counterexample :
    (resetCurrentMotion sampleStateRedo).redoHistory ≠ [] := by
  simp [resetCurrentMotion, sampleStateRedo, resetRobotPosition]

/-- C6 (amended): the redo history is empty after `startRecording` and after
`redrawFromFrame` with a valid index; `resetCurrentMotion`, however, leaves
the redo history unchanged. -/
theorem redo_cleared_on_forward_edit (s : AppState) :
    (startRecording s).redoHistory = [] ∧
    (∀ (k : ℤ) (t : MotionTrajectory), s.currentTrajectory = some t →
      0 ≤ k → k < (t.frames.length : ℤ) →
      (redrawFromFrame k s).redoHistory = []) ∧
    (resetCurrentMotion s).redoHistory = s.redoHistory := by
  refine ⟨rfl, ?_, ?_⟩
  · intro k t ht hk0 hklen
    rw [redrawFromFrame, ht]
    dsimp only
    rw [if_neg (by push_neg; exact ⟨hk0, hklen⟩)]
  · rw [resetCurrentMotion]
    cases hc : s.currentTrajectory with
    | none => rfl
    | some t => rfl

/-- Witness for C6 (amended) at the concrete sample state with redo stack,
truncating at frame 0. -/
theorem redo_cleared_on_forward_edit_witness :
    (startRecording sampleStateRedo).redoHistory = [] ∧
    (redrawFromFrame 0 sampleStateRedo).redoHistory = [] ∧
    (resetCurrentMotion sampleStateRedo).redoHistory = sampleStateRedo.redoHistory :=
  ⟨(redo_cleared_on_forward_edit sampleStateRedo).1,
   (redo_cleared_on_forward_edit sampleStateRedo).2.1 0 (sampleTraj [sampleFrame 0 0 0]) rfl
      (by norm_num) (by simp [sampleTraj]),
   (redo_cleared_on_forward_edit sampleStateRedo).2.2⟩

theorem hasChanged_self_false (config : RobotArmConfig) :
    ¬ hasChanged (some (config.shoulderAngle, config.elbowAngle)) config := by
  simp [hasChanged]
  norm_num

theorem recordTicks_no_change (config : RobotArmConfig) (startTime : ℝ)
    (ts : List ℝ) (traj : MotionTrajectory) :
    recordTicks config startTime ts
        (some traj, some (config.shoulderAngle, config.elbowAngle))
      = (some traj, some (config.shoulderAngle, config.elbowAngle)) := by
  induction ts with
  | nil => rfl
  | cons t ts ih =>
      rw [recordTicks]
      have htick : recordFrameTick config t startTime (some traj)
          (some (config.shoulderAngle, config.elbowAngle))
          = (some traj, some (config.shoulderAngle, config.elbowAngle)) := by
        rw [recordFrameTick]
        rw [if_neg (hasChanged_self_false config)]
      rw [htick]
      exact ih

/-- C3: a recording tick appends a frame to the (present) current trajectory
iff the live shoulder or elbow angle differs from the last recorded angles by
more than `0.0001` rad; consequently, an unchanging configuration over any
number of consecutive ticks appends exactly one frame — the first tick's. -/
theorem capture_dedup :
    (∀ (config : RobotArmConfig) (now startTime : ℝ) (traj : MotionTrajectory) (lc : ℝ × ℝ),
      ((recordFrameTick config now startTime (some traj) (some lc)).1
          = some { traj with frames := traj.frames ++ [recordedFrame config now startTime] }
        ↔ (0.0001 < |lc.1 - config.shoulderAngle| ∨ 0.0001 < |lc.2 - config.elbowAngle|)) ∧
      (¬ (0.0001 < |lc.1 - config.shoulderAngle| ∨ 0.0001 < |lc.2 - config.elbowAngle|) →
        recordFrameTick config now startTime (some traj) (some lc) = (some traj, some lc))) ∧
    (∀ (config : RobotArmConfig) (startTime t0 : ℝ) (ts : List ℝ) (traj : MotionTrajectory),
      (recordTicks config startTime (t0 :: ts) (some traj, none)).1
        = some { traj with frames := traj.frames ++ [recordedFrame config t0 startTime] }) := by
  constructor
  · intro config now startTime traj lc
    have hch : hasChanged (some lc) config ↔
        (0.0001 < |lc.1 - config.shoulderAngle| ∨ 0.0001 < |lc.2 - config.elbowAngle|) := by
      simp [hasChanged]
    constructor
    · rw [recordFrameTick]
      split_ifs with h
      · exact ⟨fun _ => hch.mp h, fun _ => rfl⟩
      · constructor
        · intro heq
          exfalso
          have h2 : traj =
              { traj with frames := traj.frames ++ [recordedFrame config now startTime] } :=
            Option.some_inj.mp heq
          have h3 := congrArg (fun tr => tr.frames.length) h2
          simp at h3
        · intro hc
          exact absurd (hch.mpr hc) h
    · intro hne
      rw [recordFrameTick]
      rw [if_neg (by rw [hch]; exact hne)]
  · intro config startTime t0 ts traj
    rw [recordTicks]
    have hfirst : recordFrameTick config t0 startTime (some traj) none
        = (some { traj with frames := traj.frames ++ [recordedFrame config t0 startTime] },
            some (config.shoulderAngle, config.elbowAngle)) := by
      rw [recordFrameTick]
      have hnone : hasChanged none config := trivial
      rw [if_pos hnone]
    dsimp only
    rw [hfirst]
    rw [recordTicks_no_change]

/-- Witness for C3: with the last recorded angles equal to the live angles,
a tick is a no-op, and three consecutive ticks on an unchanging configuration
append exactly the first tick's frame. -/
theorem capture_dedup_witness :
    recordFrameTick ⟨⟨0, 0⟩, 150, 130, 1, 1⟩ 5 0 (some (sampleTraj [])) (some (1, 1))
        = (some (sampleTraj []), some (1, 1)) ∧
    (recordTicks ⟨⟨0, 0⟩, 150, 130, 1, 1⟩ 0 [1, 2, 3] (some (sampleTraj []), none)).1
        = some { sampleTraj [] with
            frames := (sampleTraj []).frames ++ [recordedFrame ⟨⟨0, 0⟩, 150, 130, 1, 1⟩ 1 0] } :=
  ⟨(capture_dedup.1 ⟨⟨0, 0⟩, 150, 130, 1, 1⟩ 5 0 (sampleTraj []) (1, 1)).2
      (by norm_num),
   capture_dedup.2 ⟨⟨0, 0⟩, 150, 130, 1, 1⟩ 0 1 [2, 3] (sampleTraj [])⟩

theorem normalizeAngleDown_le (a : ℝ) : normalizeAngleDown a ≤ Real.pi := by
  induction a using normalizeAngleDown.induct with
  | case1 a h ih => rw [normalizeAngleDown, if_pos h]; exact ih
  | case2 a h => rw [normalizeAngleDown, if_neg h]; linarith

theorem normalizeAngleDown_sub (a : ℝ) :
    ∃ k : ℤ, normalizeAngleDown a = a + 2 * Real.pi * k := by
  induction a using normalizeAngleDown.induct with
  | case1 a h ih =>
      obtain ⟨k, hk⟩ := ih
      exact ⟨k - 1, by rw [normalizeAngleDown, if_pos h, hk]; push_cast; ring⟩
  | case2 a h => exact ⟨0, by rw [normalizeAngleDown, if_neg h]; push_cast; ring⟩

theorem normalizeAngleUp_ge (a : ℝ) : -Real.pi ≤ normalizeAngleUp a := by
  induction a using normalizeAngleUp.induct with
  | case1 a h ih => rw [normalizeAngleUp, if_pos h]; exact ih
  | case2 a h => rw [normalizeAngleUp, if_neg h]; linarith

theorem normalizeAngleUp_le (a : ℝ) (ha : a ≤ Real.pi) : normalizeAngleUp a ≤ Real.pi := by
  induction a using normalizeAngleUp.induct with
  | case1 a h ih =>
      rw [normalizeAngleUp, if_pos h]
      exact ih (by linarith [Real.pi_pos])
  | case2 a h => rw [normalizeAngleUp, if_neg h]; exact ha

theorem normalizeAngleUp_add (a : ℝ) :
    ∃ k : ℤ, normalizeAngleUp a = a + 2 * Real.pi * k := by
  induction a using normalizeAngleUp.induct with
  | case1 a h ih =>
      obtain ⟨k, hk⟩ := ih
      exact ⟨k + 1, by rw [normalizeAngleUp, if_pos h, hk]; push_cast; ring⟩
  | case2 a h => exact ⟨0, by rw [normalizeAngleUp, if_neg h]; push_cast; ring⟩

/-- C9 counterexample: `normalizeAngle (-π) = -π`, which is not in the
half-open interval `(-π, π]` claimed by the spec — the code's range is the
closed interval `[-π, π]`. -/
theorem normalizeAngle_boundary_counterexample :
    normalizeAngle (-Real.pi) = -Real.pi ∧
    normalizeAngle (-Real.pi) ∉ Set.Ioc (-Real.pi) Real.pi := by
  have h1 : normalizeAngleDown (-Real.pi) = -Real.pi := by
    rw [normalizeAngleDown, if_neg (by linarith [Real.pi_pos])]
  have h2 : normalizeAngleUp (-Real.pi) = -Real.pi := by
    rw [normalizeAngleUp, if_neg (by simp)]
  have h : normalizeAngle (-Real.pi) = -Real.pi := by
    rw [normalizeAngle, h1, h2]
  exact ⟨h, by rw [h]; simp⟩

/-- C9 (amended): for every angle `a`, `normalizeAngle a` lies in the closed
interval `[-π, π]` (not the half-open `(-π, π]`: both endpoints are
attainable) and differs from `a` by an integer multiple of `2π`. -/
theorem normalizeAngle_range (a : ℝ) :
    normalizeAngle a ∈ Set.Icc (-Real.pi) Real.pi ∧
    ∃ k : ℤ, normalizeAngle a = a + 2 * Real.pi * k := by
  refine ⟨⟨normalizeAngleUp_ge _, normalizeAngleUp_le _ (normalizeAngleDown_le a)⟩, ?_⟩
  obtain ⟨k1, hk1⟩ := normalizeAngleDown_sub a
  obtain ⟨k2, hk2⟩ := normalizeAngleUp_add (normalizeAngleDown a)
  refine ⟨k1 + k2, ?_⟩
  rw [normalizeAngle, hk2, hk1]
  push_cast
  ring

theorem bsearchGo_inv (frames : List MotionFrame) (e : ℝ)
    (hne : frames ≠ [])
    (hsorted : ∀ i j : ℕ, i ≤ j → j < frames.length →
      (frames.getD i default).timestamp ≤ (frames.getD j default).timestamp) :
    ∀ (m : ℕ) (left right : ℤ) (acc : ℕ),
      (right + 1 - left).toNat = m →
      0 ≤ left →
      right ≤ (frames.length : ℤ) - 1 →
      left ≤ right + 1 →
      ((left = 0 ∧ acc = 0) ∨
        (1 ≤ left ∧ (acc : ℤ) = left - 1 ∧
          (frames.getD (left - 1).toNat default).timestamp ≤ e)) →
      (right = (frames.length : ℤ) - 1 ∨
        e < (frames.getD (right + 1).toNat default).timestamp) →
      (bsearchGo frames e left right acc < frames.length ∧
        ((frames.getD 0 default).timestamp ≤ e →
          (frames.getD (bsearchGo frames e left right acc) default).timestamp ≤ e ∧
          ∀ j, j < frames.length → (frames.getD j default).timestamp ≤ e →
            j ≤ bsearchGo frames e left right acc) ∧
        (e < (frames.getD 0 default).timestamp → bsearchGo frames e left right acc = 0)) := by
  have hn : 0 < frames.length := List.length_pos.mpr hne
  intro m
  induction m using Nat.strong_induction_on with
  | _ m ih =>
    intro left right acc hm h0 hr hlr hacc hright
    rw [bsearchGo]
    by_cases hcond : left ≤ right
    · rw [if_pos hcond]
      dsimp only
      have hmid_lo : left ≤ (left + right) / 2 := by
        have h2l : left * 2 ≤ left + right := by linarith
        exact (Int.le_ediv_iff_mul_le (by norm_num)).mpr h2l
      have hmid_hi : (left + right) / 2 ≤ right := by
        have hmono : (left + right) / 2 ≤ (right + right) / 2 :=
          Int.ediv_le_ediv (by norm_num) (by linarith)
        have hrr : (right + right) / 2 = right := by
          have h2 : right + right = 2 * right := by ring
          rw [h2, Int.mul_ediv_cancel_left _ (by norm_num)]
        linarith
      have hmid0 : 0 ≤ (left + right) / 2 := le_trans h0 hmid_lo
      by_cases hts : (frames.getD ((left + right) / 2).toNat default).timestamp ≤ e
      · rw [if_pos hts]
        refine ih ((right + 1 - ((left + right) / 2 + 1)).toNat) (by omega)
          ((left + right) / 2 + 1) right (((left + right) / 2).toNat) rfl
          (by omega) hr (by omega) ?_ hright
        refine Or.inr ⟨by omega, by omega, ?_⟩
        have heq : ((left + right) / 2 + 1 - 1) = (left + right) / 2 := by ring
        rw [heq]
        exact hts
      · rw [if_neg hts]
        refine ih ((left + right) / 2 - 1 + 1 - left).toNat (by omega)
          left ((left + right) / 2 - 1) acc rfl h0 (by omega) (by omega) hacc ?_
        refine Or.inr ?_
        have heq : ((left + right) / 2 - 1 + 1) = (left + right) / 2 := by ring
        rw [heq]
        exact lt_of_not_le hts
    · rw [if_neg hcond]
      have hleft_eq : left = right + 1 := by omega
      rcases hacc with ⟨hl0, hacc0⟩ | ⟨hl1, haccEq, hts_acc⟩
      · -- left = 0, so right = -1 and the whole array is above `e`
        have hright1 : right = -1 := by omega
        have hts0 : e < (frames.getD 0 default).timestamp := by
          rcases hright with h | h
          · omega
          · have h01 : ((right + 1).toNat : ℕ) = 0 := by omega
            rwa [h01] at h
        subst hacc0
        refine ⟨hn, fun h => absurd h (not_le.mpr hts0), fun _ => rfl⟩
      · -- left ≥ 1: acc = left - 1 is the answer
        have haccNat : ((left - 1).toNat : ℕ) = acc := by omega
        rw [haccNat] at hts_acc
        have haccLt : acc < frames.length := by omega
        refine ⟨haccLt, fun _ => ⟨hts_acc, ?_⟩, fun hlt => ?_⟩
        · intro j hj hjts
          by_contra hgt
          push_neg at hgt
          have hjleft : left ≤ (j : ℤ) := by omega
          rcases hright with h | h
          · omega
          · have hlj : (right + 1).toNat ≤ j := by omega
            have := hsorted ((right + 1).toNat) j hlj hj
            linarith
        · exfalso
          have h0acc := hsorted 0 acc (Nat.zero_le _) haccLt
          linarith

/-- C4: on a playback tick over a non-empty, timestamp-sorted frame list, the
binary search of `animate` returns the largest index whose timestamp is at
most the elapsed time (0 if there is none), and the tick publishes that index
and copies that frame's angles into the arm configuration exactly when the
index changed since the previous tick. -/
theorem playback_frame_lookup :
    (∀ (frames : List MotionFrame) (e : ℝ),
      frames ≠ [] →
      (∀ i j : ℕ, i ≤ j → j < frames.length →
        (frames.getD i default).timestamp ≤ (frames.getD j default).timestamp) →
      findFrameIndex frames e < frames.length ∧
      ((frames.getD 0 default).timestamp ≤ e →
        (frames.getD (findFrameIndex frames e) default).timestamp ≤ e ∧
        ∀ j, j < frames.length → (frames.getD j default).timestamp ≤ e →
          j ≤ findFrameIndex frames e) ∧
      (e < (frames.getD 0 default).timestamp → findFrameIndex frames e = 0)) ∧
    (∀ (traj : MotionTrajectory) (e : ℝ) (lastIdx : ℤ) (config : RobotArmConfig),
      ((findFrameIndex traj.frames e : ℤ) = lastIdx →
        animateTick traj e lastIdx config
          = ⟨lastIdx, none, config,
              decide (traj.frames.length - 1 ≤ findFrameIndex traj.frames e)⟩) ∧
      ((findFrameIndex traj.frames e : ℤ) ≠ lastIdx →
        (animateTick traj e lastIdx config).publishedFrame
            = some (findFrameIndex traj.frames e) ∧
        (animateTick traj e lastIdx config).config.shoulderAngle
            = (traj.frames.getD (findFrameIndex traj.frames e) default).shoulderAngle ∧
        (animateTick traj e lastIdx config).config.elbowAngle
            = (traj.frames.getD (findFrameIndex traj.frames e) default).elbowAngle ∧
        (animateTick traj e lastIdx config).lastFrameIndex
            = (findFrameIndex traj.frames e : ℤ))) := by
  constructor
  · intro frames e hne hsorted
    have hn : 0 < frames.length := List.length_pos.mpr hne
    exact bsearchGo_inv frames e hne hsorted (((frames.length : ℤ) - 1 + 1 - 0).toNat)
      0 ((frames.length : ℤ) - 1) 0 rfl (by omega) (by omega) (by omega)
      (Or.inl ⟨rfl, rfl⟩) (Or.inl rfl)
  · intro traj e lastIdx config
    constructor
    · intro heq
      rw [animateTick]
      rw [if_neg (by simpa using heq)]
    · intro hne
      rw [animateTick]
      rw [if_pos hne]
      exact ⟨rfl, rfl, rfl, rfl⟩

/-- Witness for C4 at a concrete sorted three-frame trajectory with
timestamps 0, 10, 20, elapsed time 15, and previous index `-1` (the code's
initialization). -/
theorem playback_frame_lookup_witness :
    (findFrameIndex [sampleFrame 0 0 0, sampleFrame 10 1 1, sampleFrame 20 2 2] 15 <
        ([sampleFrame 0 0 0, sampleFrame 10 1 1, sampleFrame 20 2 2] :
          List MotionFrame).length) ∧
    (animateTick sampleTraj3 15 (-1) resetConfig).publishedFrame
        = some (findFrameIndex sampleTraj3.frames 15) := by
  constructor
  · refine (playback_frame_lookup.1 [sampleFrame 0 0 0, sampleFrame 10 1 1, sampleFrame 20 2 2]
      15 (by simp) ?_).1
    intro i j hij hj
    simp only [List.length_cons, List.length_nil] at hj
    interval_cases j <;> interval_cases i <;> simp [sampleFrame, List.getD] <;> norm_num
  · exact ((playback_frame_lookup.2 sampleTraj3 15 (-1) resetConfig).2 (by omega)).1

theorem inverseKinematics_clampedTarget (s t : Vector2D) (l1 l2 : ℝ) (elbowUp : Bool) :
    (inverseKinematics s t l1 l2 elbowUp).clampedTarget =
      if l1 + l2 < distance s t then
        ⟨s.x + Real.cos (angleTo s t) * (l1 + l2),
          s.y + Real.sin (angleTo s t) * (l1 + l2)⟩
      else if distance s t < |l1 - l2| then
        ⟨s.x + Real.cos (angleTo s t) * |l1 - l2|,
          s.y + Real.sin (angleTo s t) * |l1 - l2|⟩
      else t := rfl

/-- C1: `inverseKinematics` is total (the embedding is a function returning
angles and a clamped target for every input), and: a target beyond `l1 + l2`
is clamped onto the max-reach circle along the shoulder-to-target ray; a
target closer than `|l1 - l2|` is clamped onto the min-reach circle along the
same ray; a target in between is used unchanged; and at
`shoulder = (0,0)`, `l1 = 150`, `l2 = 130`, `target = (1000,0)` the clamped
target is `(280, 0)` and the internally used distance is `280`. -/
theorem ik_clamp_spec :
    (∀ (s t : Vector2D) (l1 l2 : ℝ) (elbowUp : Bool), 0 < l1 → 0 < l2 →
      ((l1 + l2 < distance s t →
        distance s (inverseKinematics s t l1 l2 elbowUp).clampedTarget = l1 + l2 ∧
        angleTo s (inverseKinematics s t l1 l2 elbowUp).clampedTarget = angleTo s t ∧
        ikInternalDist s t l1 l2 = l1 + l2) ∧
      (distance s t < |l1 - l2| →
        distance s (inverseKinematics s t l1 l2 elbowUp).clampedTarget = |l1 - l2| ∧
        angleTo s (inverseKinematics s t l1 l2 elbowUp).clampedTarget = angleTo s t ∧
        ikInternalDist s t l1 l2 = |l1 - l2|) ∧
      (|l1 - l2| ≤ distance s t → distance s t ≤ l1 + l2 →
        (inverseKinematics s t l1 l2 elbowUp).clampedTarget = t ∧
        ikInternalDist s t l1 l2 = distance s t))) ∧
    ((inverseKinematics ⟨0, 0⟩ ⟨1000, 0⟩ 150 130 true).clampedTarget = ⟨280, 0⟩ ∧
      ikInternalDist ⟨0, 0⟩ ⟨1000, 0⟩ 150 130 = 280) := by
  constructor
  · intro s t l1 l2 elbowUp hl1 hl2
    refine ⟨?_, ?_, ?_⟩
    · intro hgt
      rw [inverseKinematics_clampedTarget, if_pos hgt]
      refine ⟨distance_polar s _ _ (by linarith), angleTo_polar s t _ (by linarith), ?_⟩
      simp only [ikInternalDist]
      rw [if_pos hgt]
    · intro hlt
      have habs_pos : 0 < |l1 - l2| := lt_of_le_of_lt (distance_nonneg s t) hlt
      have hns : ¬ (l1 + l2 < distance s t) := by
        push_neg
        have : |l1 - l2| ≤ l1 + l2 := abs_le.mpr ⟨by linarith, by linarith⟩
        linarith
      rw [inverseKinematics_clampedTarget, if_neg hns, if_pos hlt]
      refine ⟨distance_polar s _ _ (abs_nonneg _), angleTo_polar s t _ habs_pos, ?_⟩
      simp only [ikInternalDist]
      rw [if_neg hns, if_pos hlt]
    · intro hlo hhi
      have h1 : ¬ (l1 + l2 < distance s t) := not_lt.mpr hhi
      have h2 : ¬ (distance s t < |l1 - l2|) := not_lt.mpr hlo
      rw [inverseKinematics_clampedTarget, if_neg h1, if_neg h2]
      refine ⟨rfl, ?_⟩
      simp only [ikInternalDist]
      rw [if_neg h1, if_neg h2]
  · have hd : distance ⟨0, 0⟩ ⟨1000, 0⟩ = 1000 := distance_example_1000
    have hgt : (150 : ℝ) + 130 < distance ⟨0, 0⟩ ⟨1000, 0⟩ := by
      rw [hd]; norm_num
    have hth : angleTo ⟨0, 0⟩ ⟨1000, 0⟩ = 0 := by
      show atan2 ((0 : ℝ) - 0) ((1000 : ℝ) - 0) = 0
      rw [show (0 : ℝ) - 0 = 0 by norm_num, show (1000 : ℝ) - 0 = 1000 by norm_num]
      exact atan2_zero_of_nonneg 1000 (by norm_num)
    constructor
    · rw [inverseKinematics_clampedTarget, if_pos hgt, hth]
      apply Vector2D.ext_xy <;> simp <;> norm_num
    · simp only [ikInternalDist]
      rw [if_pos hgt]
      norm_num

/-- Witness for C1 at the spec's concrete example: shoulder `(0,0)`, arm
lengths `150` and `130`, target `(1000,0)` (beyond max reach). -/
theorem ik_clamp_spec_witness :
    distance ⟨0, 0⟩ (inverseKinematics ⟨0, 0⟩ ⟨1000, 0⟩ 150 130 true).clampedTarget
        = 150 + 130 ∧
    angleTo ⟨0, 0⟩ (inverseKinematics ⟨0, 0⟩ ⟨1000, 0⟩ 150 130 true).clampedTarget
        = angleTo ⟨0, 0⟩ ⟨1000, 0⟩ ∧
    ikInternalDist ⟨0, 0⟩ ⟨1000, 0⟩ 150 130 = 150 + 130 :=
  (ik_clamp_spec.1 ⟨0, 0⟩ ⟨1000, 0⟩ 150 130 true (by norm_num) (by norm_num)).1
    (by rw [distance_example_1000]; norm_num)

theorem inverseKinematics_shoulderAngle (s t : Vector2D) (l1 l2 : ℝ) (elbowUp : Bool) :
    (inverseKinematics s t l1 l2 elbowUp).shoulderAngle =
      (if elbowUp then
        angleTo s (inverseKinematics s t l1 l2 elbowUp).clampedTarget -
          Real.arccos (max (-1) (min 1
            ((l1 * l1 + ikInternalDist s t l1 l2 * ikInternalDist s t l1 l2 - l2 * l2) /
              (2 * l1 * ikInternalDist s t l1 l2))))
      else
        angleTo s (inverseKinematics s t l1 l2 elbowUp).clampedTarget +
          Real.arccos (max (-1) (min 1
            ((l1 * l1 + ikInternalDist s t l1 l2 * ikInternalDist s t l1 l2 - l2 * l2) /
              (2 * l1 * ikInternalDist s t l1 l2))))) := rfl

theorem inverseKinematics_elbowAngle (s t : Vector2D) (l1 l2 : ℝ) (elbowUp : Bool) :
    (inverseKinematics s t l1 l2 elbowUp).elbowAngle =
      (if elbowUp then
        Real.pi - Real.arccos (max (-1) (min 1
          ((l1 * l1 + l2 * l2 - ikInternalDist s t l1 l2 * ikInternalDist s t l1 l2) /
            (2 * l1 * l2))))
      else
        -(Real.pi - Real.arccos (max (-1) (min 1
          ((l1 * l1 + l2 * l2 - ikInternalDist s t l1 l2 * ikInternalDist s t l1 l2) /
            (2 * l1 * l2)))))) := rfl

theorem forwardKinematics_endEffector (s : Vector2D) (l1 l2 sa ea : ℝ) :
    (forwardKinematics ⟨s, l1, l2, sa, ea⟩).endEffectorPosition =
      ⟨s.x + Real.cos sa * l1 + Real.cos (sa + ea) * l2,
        s.y + Real.sin sa * l1 + Real.sin (sa + ea) * l2⟩ := rfl

/-- FK/IK round trip for every reachable target at positive distance
(`0 < distance(shoulder, target)`, `|l1 - l2| ≤ distance ≤ l1 + l2`, positive
lengths) and either elbow flag: forward kinematics applied to the angles
returned by inverse kinematics reproduces the target exactly (the real-number
embedding proves exact equality, which subsumes any floating-point
tolerance).  The positive-distance hypothesis excludes the degenerate
`target = shoulder` point, where the source's `cosShoulderOffset` divides 0
by 0 and yields NaN — see `fk_ik_zero_distance_division`. -/
theorem fk_ik_round_trip (s t : Vector2D) (l1 l2 : ℝ) (elbowUp : Bool)
    (hl1 : 0 < l1) (hl2 : 0 < l2) (hdpos : 0 < distance s t)
    (hlo : |l1 - l2| ≤ distance s t) (hhi : distance s t ≤ l1 + l2) :
    (forwardKinematics ⟨s, l1, l2,
        (inverseKinematics s t l1 l2 elbowUp).shoulderAngle,
        (inverseKinematics s t l1 l2 elbowUp).elbowAngle⟩).endEffectorPosition = t := by
  have hd0 : 0 ≤ distance s t := distance_nonneg s t
  have hnhi : ¬ (l1 + l2 < distance s t) := not_lt.mpr hhi
  have hnlo : ¬ (distance s t < |l1 - l2|) := not_lt.mpr hlo
  have hdist : ikInternalDist s t l1 l2 = distance s t := by
    simp only [ikInternalDist]
    rw [if_neg hnhi, if_neg hnlo]
  have hct : (inverseKinematics s t l1 l2 elbowUp).clampedTarget = t := by
    rw [inverseKinematics_clampedTarget, if_neg hnhi, if_neg hnlo]
  -- abbreviations
  set d := distance s t with hd_def
  set theta := angleTo s t with htheta_def
  set c1 := (l1 * l1 + l2 * l2 - d * d) / (2 * l1 * l2) with hc1_def
  set c2 := (l1 * l1 + d * d - l2 * l2) / (2 * l1 * d) with hc2_def
  -- cosine bounds
  have habs_sq : (l1 - l2) ^ 2 ≤ d ^ 2 := by
    nlinarith [mul_self_le_mul_self (abs_nonneg (l1 - l2)) hlo, sq_abs (l1 - l2)]
  have hsum_sq : d ^ 2 ≤ (l1 + l2) ^ 2 := by nlinarith [hhi, hd0]
  have hc1_le : c1 ≤ 1 := by
    rw [hc1_def, div_le_one (by positivity)]
    nlinarith [habs_sq]
  have hc1_ge : -1 ≤ c1 := by
    rw [hc1_def, le_div_iff (by positivity)]
    nlinarith [hsum_sq]
  have hc1_clamp : max (-1) (min 1 c1) = c1 := by
    rw [min_eq_right hc1_le, max_eq_right hc1_ge]
  have hd_lo1 : l1 - l2 ≤ d := le_trans (le_abs_self _) hlo
  have hd_lo2 : l2 - l1 ≤ d := le_trans (by rw [abs_sub_comm]; exact le_abs_self _) hlo
  have hc2_le : c2 ≤ 1 := by
    rw [hc2_def, div_le_one (by positivity)]
    nlinarith [hd_lo1, hd_lo2, hhi, hdpos]
  have hc2_ge : -1 ≤ c2 := by
    rw [hc2_def, le_div_iff (by positivity)]
    nlinarith [hd_lo2, hdpos, hl1, hl2]
  have hc2_clamp : max (-1) (min 1 c2) = c2 := by
    rw [min_eq_right hc2_le, max_eq_right hc2_ge]
  -- the two law-of-cosines identities
  have hK1 : l1 - l2 * c1 = d * c2 := by
    rw [hc1_def, hc2_def]
    field_simp
    ring
  have hK2 : l2 * Real.sqrt (1 - c1 ^ 2) = d * Real.sqrt (1 - c2 ^ 2) := by
    have hl2s : l2 * Real.sqrt (1 - c1 ^ 2) = Real.sqrt (l2 ^ 2 * (1 - c1 ^ 2)) := by
      rw [Real.sqrt_mul (sq_nonneg l2), Real.sqrt_sq hl2.le]
    have hds : d * Real.sqrt (1 - c2 ^ 2) = Real.sqrt (d ^ 2 * (1 - c2 ^ 2)) := by
      rw [Real.sqrt_mul (sq_nonneg d), Real.sqrt_sq hd0]
    rw [hl2s, hds]
    congr 1
    rw [hc1_def, hc2_def]
    field_simp
    ring
  -- name the two arccos angles
  set gam := Real.arccos c1 with hgam_def
  set phi := Real.arccos c2 with hphi_def
  have hcos_gam : Real.cos gam = c1 := Real.cos_arccos hc1_ge hc1_le
  have hsin_gam : Real.sin gam = Real.sqrt (1 - c1 ^ 2) := Real.sin_arccos c1
  have hcos_phi : Real.cos phi = c2 := Real.cos_arccos hc2_ge hc2_le
  have hsin_phi : Real.sin phi = Real.sqrt (1 - c2 ^ 2) := Real.sin_arccos c2
  have hK1' : l1 - l2 * Real.cos gam = d * Real.cos phi := by
    rw [hcos_gam, hcos_phi]; exact hK1
  have hK2' : l2 * Real.sin gam = d * Real.sin phi := by
    rw [hsin_gam, hsin_phi]; exact hK2
  -- the shoulder/elbow angles produced by IK at a reachable target
  have hsa : (inverseKinematics s t l1 l2 elbowUp).shoulderAngle =
      if elbowUp then theta - phi else theta + phi := by
    rw [inverseKinematics_shoulderAngle, hct, hdist, ← htheta_def, ← hc2_def,
      hc2_clamp, ← hphi_def]
  have hea : (inverseKinematics s t l1 l2 elbowUp).elbowAngle =
      if elbowUp then Real.pi - gam else -(Real.pi - gam) := by
    rw [inverseKinematics_elbowAngle, hdist, ← hc1_def, hc1_clamp, ← hgam_def]
  -- components of the target
  have htx : d * Real.cos theta = t.x - s.x := (distance_mul_cos_sin s t).1
  have hty : d * Real.sin theta = t.y - s.y := (distance_mul_cos_sin s t).2
  rw [hsa, hea, forwardKinematics_endEffector]
  by_cases heU : elbowUp = true
  case pos =>
      rw [if_pos heU, if_pos heU]
      have e1 : Real.cos (theta - phi) * (l1 - l2 * Real.cos gam) -
          Real.sin (theta - phi) * (l2 * Real.sin gam) = d * Real.cos theta := by
        rw [hK1', hK2']
        have hr : Real.cos (theta - phi) * (d * Real.cos phi) -
            Real.sin (theta - phi) * (d * Real.sin phi)
            = d * (Real.cos (theta - phi) * Real.cos phi -
                Real.sin (theta - phi) * Real.sin phi) := by ring
        rw [hr, ← Real.cos_add, sub_add_cancel]
      have e2 : Real.sin (theta - phi) * (l1 - l2 * Real.cos gam) +
          Real.cos (theta - phi) * (l2 * Real.sin gam) = d * Real.sin theta := by
        rw [hK1', hK2']
        have hr : Real.sin (theta - phi) * (d * Real.cos phi) +
            Real.cos (theta - phi) * (d * Real.sin phi)
            = d * (Real.sin (theta - phi) * Real.cos phi +
                Real.cos (theta - phi) * Real.sin phi) := by ring
        rw [hr, ← Real.sin_add, sub_add_cancel]
      apply Vector2D.ext_xy
      · show s.x + Real.cos (theta - phi) * l1 +
            Real.cos (theta - phi + (Real.pi - gam)) * l2 = t.x
        rw [Real.cos_add, Real.cos_pi_sub, Real.sin_pi_sub]
        linear_combination e1 + htx
      · show s.y + Real.sin (theta - phi) * l1 +
            Real.sin (theta - phi + (Real.pi - gam)) * l2 = t.y
        rw [Real.sin_add, Real.cos_pi_sub, Real.sin_pi_sub]
        linear_combination e2 + hty
  case neg =>
      rw [if_neg heU, if_neg heU]
      have e1 : Real.cos (theta + phi) * (l1 - l2 * Real.cos gam) +
          Real.sin (theta + phi) * (l2 * Real.sin gam) = d * Real.cos theta := by
        rw [hK1', hK2']
        have hr : Real.cos (theta + phi) * (d * Real.cos phi) +
            Real.sin (theta + phi) * (d * Real.sin phi)
            = d * (Real.cos (theta + phi) * Real.cos phi +
                Real.sin (theta + phi) * Real.sin phi) := by ring
        rw [hr, ← Real.cos_sub, add_sub_cancel_right]
      have e2 : Real.sin (theta + phi) * (l1 - l2 * Real.cos gam) -
          Real.cos (theta + phi) * (l2 * Real.sin gam) = d * Real.sin theta := by
        rw [hK1', hK2']
        have hr : Real.sin (theta + phi) * (d * Real.cos phi) -
            Real.cos (theta + phi) * (d * Real.sin phi)
            = d * (Real.sin (theta + phi) * Real.cos phi -
                Real.cos (theta + phi) * Real.sin phi) := by ring
        rw [hr, ← Real.sin_sub, add_sub_cancel_right]
      apply Vector2D.ext_xy
      · show s.x + Real.cos (theta + phi) * l1 +
            Real.cos (theta + phi + -(Real.pi - gam)) * l2 = t.x
        rw [show theta + phi + -(Real.pi - gam) = theta + phi - (Real.pi - gam) by ring]
        rw [Real.cos_sub, Real.cos_pi_sub, Real.sin_pi_sub]
        linear_combination e1 + htx
      · show s.y + Real.sin (theta + phi) * l1 +
            Real.sin (theta + phi + -(Real.pi - gam)) * l2 = t.y
        rw [show theta + phi + -(Real.pi - gam) = theta + phi - (Real.pi - gam) by ring]
        rw [Real.sin_sub, Real.cos_pi_sub, Real.sin_pi_sub]
        linear_combination e2 + hty

/-- Witness for the positive-distance round trip at the reachable target
`(200, 0)` with shoulder `(0,0)` and arm lengths `150`, `130`
(`|150-130| = 20 ≤ 200 ≤ 280`). -/
theorem fk_ik_round_trip_witness :
    (forwardKinematics ⟨⟨0, 0⟩, 150, 130,
        (inverseKinematics ⟨0, 0⟩ ⟨200, 0⟩ 150 130 true).shoulderAngle,
        (inverseKinematics ⟨0, 0⟩ ⟨200, 0⟩ 150 130 true).elbowAngle⟩).endEffectorPosition
      = ⟨200, 0⟩ :=
  fk_ik_round_trip ⟨0, 0⟩ ⟨200, 0⟩ 150 130 true (by norm_num) (by norm_num)
    (by rw [distance_example_200]; norm_num)
    (by rw [distance_example_200]; norm_num)
    (by rw [distance_example_200]; norm_num)

/-- C2: the FK/IK round trip fails in the source at a point of the claimed
reachable domain.  At `shoulder = target = (0,0)` with `l1 = l2 = 150` the
target is reachable (`distance = 0 = |l1 - l2|`), and there
`inverseKinematics` computes `cosShoulderOffset` as a division of numerator
`0` by denominator `0` — IEEE NaN in JavaScript — so the returned
`shoulderAngle`, and hence the forward-kinematics end effector, are NaN and
do not reproduce the target, contradicting both the claim and the function's
own doc comment ("ALWAYS returns a solution ... The end effector will reach
the clamped position").  Real numbers cannot represent NaN (`0 / 0 = 0` in
Lean collapses this error path), so this theorem exhibits the degenerate
division at the failing input: the input lies in the claimed domain and both
the numerator and the denominator of `cosShoulderOffset` evaluate to `0`.
For every reachable target at positive distance the round trip is exact
(`fk_ik_round_trip`). -/
theorem fk_ik_zero_distance_division :
    distance ⟨0, 0⟩ ⟨0, 0⟩ = 0 ∧
    |(150 : ℝ) - 150| ≤ distance ⟨0, 0⟩ ⟨0, 0⟩ ∧
    distance ⟨0, 0⟩ ⟨0, 0⟩ ≤ 150 + 150 ∧
    (150 * 150 + ikInternalDist ⟨0, 0⟩ ⟨0, 0⟩ 150 150 * ikInternalDist ⟨0, 0⟩ ⟨0, 0⟩ 150 150
        - 150 * 150 : ℝ) = 0 ∧
    (2 * 150 * ikInternalDist ⟨0, 0⟩ ⟨0, 0⟩ 150 150 : ℝ) = 0 := by
  have hd : distance ⟨0, 0⟩ ⟨0, 0⟩ = 0 := by
    rw [distance]
    norm_num
  have hik : ikInternalDist ⟨0, 0⟩ ⟨0, 0⟩ 150 150 = 0 := by
    simp only [ikInternalDist]
    rw [hd]
    rw [if_neg (by norm_num), if_neg (by norm_num)]
  exact ⟨hd, by rw [hd]; norm_num, by rw [hd]; norm_num,
    by rw [hik]; norm_num, by rw [hik]; norm_num⟩

end RobotSim
